import Mathlib

set_option synthInstance.maxSize 512

/-!
Verification of the query lifecycle of promoted-athena-query (src/index.tsx).

The TypeScript class AthenaQuery submits a query to Athena, polls the
execution status until a terminal state is reached, then fetches result
pages with continuation tokens, converting each page of positional rows
into named records and handing each page to a batch processor.

The embedding below is a shallow translation of src/index.tsx.  The
external Athena client is modelled as a script of canned responses that
are consumed in order, exactly like the MockAthenaClient used by the
repository test-suite; the run returns a trace recording the requests
issued, the batches delivered to the batch processor, and the outcome.
-/

namespace PromotedAthenaQuery

/-- One cell of an Athena row: `data.VarCharValue` in the wire format. -/
structure Datum where
  VarCharValue : Option String
deriving DecidableEq

/-- One Athena row: `row.Data` is an optional list of cells. -/
structure Row where
  Data : Option (List Datum)
deriving DecidableEq

/-- The `ResultSet` field of a GetQueryResults response. -/
structure ResultSetData where
  Rows : Option (List Row)
deriving DecidableEq

/-- Response of GetQueryResults: http status from metadata, result set,
and an optional continuation token. -/
structure GetQueryResultsCommandOutput where
  httpStatusCode : Option Nat
  ResultSet : Option ResultSetData
  NextToken : Option String
deriving DecidableEq

/-- Request of GetQueryResults: execution id plus optional token. -/
structure GetQueryResultsInput where
  QueryExecutionId : Option String
  NextToken : Option String
deriving DecidableEq

/-- The `Status` field of a query execution. -/
structure QueryExecutionStatus where
  State : Option String
deriving DecidableEq

/-- The `QueryExecution` field of a GetQueryExecution response. -/
structure QueryExecutionData where
  Status : Option QueryExecutionStatus
deriving DecidableEq

/-- Response of GetQueryExecution. -/
structure GetQueryExecutionCommandOutput where
  QueryExecution : Option QueryExecutionData
deriving DecidableEq

/-- Response of StartQueryExecution. -/
structure StartQueryExecutionCommandOutput where
  QueryExecutionId : Option String
deriving DecidableEq

/-- Errors thrown by the TypeScript code, by throw site. -/
inductive QueryError where
  /-- processQuery: AthenaQuery can only be used once. -/
  | reuse : QueryError
  /-- startQuery: expected a QueryExecutionId after calling startQuery. -/
  | noExecutionId : QueryError
  /-- waitForSuccessfulResult: unsupported response state; carries it. -/
  | unsupportedState (state : Option String) : QueryError
  /-- getResults: GetQueryResults failed (non-200 http status). -/
  | getResultsFailed : QueryError
  /-- fromRowsToJsonValues: header row is not long enough. -/
  | headerTooShort : QueryError
  /-- propagated rejection of the batch processor. -/
  | consumer (e : String) : QueryError
  /-- the response script ran out (mock exhausted). -/
  | scriptExhausted : QueryError
deriving DecidableEq

/-- A converted record: a JavaScript object as an insertion-ordered list
of key/value pairs, keys unique. -/
abbrev JsonObject := List (String × Option String)

/-- JavaScript property assignment on an object: updates the value in
place when the key is already present, otherwise appends the key. -/
def objInsert (result : JsonObject) (key : String) (value : Option String) : JsonObject :=
  if result.any fun p => p.1 = key then
    result.map fun p => if p.1 = key then (p.1, value) else p
  else
    result ++ [(key, value)]

/-- The forEach body of fromRowsToJsonValues: walk the cells of one row,
look up the field name at each index, throw when it is missing or the
empty string (JavaScript falsiness of fieldNames[index]), otherwise
assign the cell value to that field. -/
def rowDataLoop (fieldNames : List String) (result : JsonObject) (index : Nat) :
    List Datum → Except QueryError JsonObject
  | [] => .ok result
  | d :: rest =>
    match fieldNames[index]? with
    | none => .error .headerTooShort
    | some fieldName =>
      if fieldName = "" then .error .headerTooShort
      else rowDataLoop fieldNames (objInsert result fieldName d.VarCharValue) (index + 1) rest

/-- fromRowsToJsonValues of src/index.tsx: convert rows from the Athena
positional format to row dictionaries, failing on the first row that
refers to a missing or falsy field name. -/
def fromRowsToJsonValues : List Row → List String → Except QueryError (List JsonObject)
  | [], _ => .ok []
  | row :: rest, fieldNames =>
    match rowDataLoop fieldNames [] 0 (row.Data.getD []) with
    | .error e => .error e
    | .ok obj =>
      match fromRowsToJsonValues rest fieldNames with
      | .error e => .error e
      | .ok objs => .ok (obj :: objs)

/-- getState of src/index.tsx: optional chain response.QueryExecution.Status.State. -/
def getState (response : GetQueryExecutionCommandOutput) : Option String :=
  (response.QueryExecution.bind fun q => q.Status).bind fun s => s.State

/-- isTerminalState of src/index.tsx: a state is terminal when it is
neither QUEUED nor RUNNING (an absent state counts as terminal). -/
def isTerminalState (state : Option String) : Bool :=
  decide (state ≠ some "QUEUED" ∧ state ≠ some "RUNNING")

/-- Result of one getResults call (GetResultOutput of src/index.tsx). -/
structure GetResultOutput where
  Data : List JsonObject
  NextToken : Option String
  fieldNames : List String
deriving DecidableEq

/-- getResults of src/index.tsx applied to the canned response for this
request: fail on a non-200 http status; on the first query derive the
field names from row 0 (synthesizing col0, col1, ... for absent cell
values) and drop row 0; convert the remaining rows. -/
def getResults (response : GetQueryResultsCommandOutput) (isFirstQuery : Bool)
    (fieldNames : List String) : Except QueryError GetResultOutput :=
  if response.httpStatusCode ≠ some 200 then .error .getResultsFailed
  else
    let rows := response.ResultSet.bind fun rs => rs.Rows
    let pair :=
      if isFirstQuery then
        let undefineableFields : Option (List String) :=
          ((rows.bind fun rs => rs[0]?).bind fun r => r.Data).map fun ds =>
            ds.enum.map fun p =>
              match p.2.VarCharValue with
              | none => "col" ++ toString p.1
              | some v => v
        (rows.map (List.drop 1), undefineableFields.getD [])
      else (rows, fieldNames)
    match pair.1 with
    | some rs =>
      match fromRowsToJsonValues rs pair.2 with
      | .ok ds => .ok { Data := ds, NextToken := response.NextToken, fieldNames := pair.2 }
      | .error e => .error e
    | none => .ok { Data := [], NextToken := response.NextToken, fieldNames := pair.2 }

/-- The records a non-first page yields under given field names: absent
row lists yield no records, present row lists are converted. -/
def pageRecords (fieldNames : List String) (page : GetQueryResultsCommandOutput) :
    Except QueryError (List JsonObject) :=
  match page.ResultSet.bind fun rs => rs.Rows with
  | some rs => fromRowsToJsonValues rs fieldNames
  | none => .ok []

/-- The batch processor supplied by the caller, as a pure function that
may reject with an error payload. -/
def BatchProcessor := List JsonObject → Except String Unit

/-- The while loop of getResultsInBatches: as long as a continuation
token is present, fetch the next page (consuming the response script in
order), convert it with the page-1 field names and hand the records to
the batch processor.  Returns the requests issued, the batches
delivered, and the outcome. -/
def runPages (bp : BatchProcessor) (QueryExecutionId : Option String)
    (fieldNames : List String) (NextToken : String) :
    List GetQueryResultsCommandOutput →
      List GetQueryResultsInput × List (List JsonObject) × Except QueryError Unit
  | [] => ([{ QueryExecutionId := QueryExecutionId, NextToken := some NextToken }], [],
      .error .scriptExhausted)
  | page :: rest =>
    let req : GetQueryResultsInput :=
      { QueryExecutionId := QueryExecutionId, NextToken := some NextToken }
    match getResults page false fieldNames with
    | .error e => ([req], [], .error e)
    | .ok out =>
      match bp out.Data with
      | .error e => ([req], [out.Data], .error (.consumer e))
      | .ok _ =>
        match out.NextToken with
        | none => ([req], [out.Data], .ok ())
        | some tok =>
          let r := runPages bp QueryExecutionId fieldNames tok rest
          (req :: r.1, out.Data :: r.2.1, r.2.2)

/-- getResultsInBatches of src/index.tsx: fetch page 1 without a token,
derive the field names from its header row, deliver its records, then
loop on the continuation token. -/
def getResultsInBatches (bp : BatchProcessor) (QueryExecutionId : Option String) :
    List GetQueryResultsCommandOutput →
      List GetQueryResultsInput × List (List JsonObject) × Except QueryError Unit
  | [] => ([{ QueryExecutionId := QueryExecutionId, NextToken := none }], [],
      .error .scriptExhausted)
  | page :: rest =>
    let req : GetQueryResultsInput :=
      { QueryExecutionId := QueryExecutionId, NextToken := none }
    match getResults page true [] with
    | .error e => ([req], [], .error e)
    | .ok out =>
      match bp out.Data with
      | .error e => ([req], [out.Data], .error (.consumer e))
      | .ok _ =>
        match out.NextToken with
        | none => ([req], [out.Data], .ok ())
        | some tok =>
          let r := runPages bp QueryExecutionId out.fieldNames tok rest
          (req :: r.1, out.Data :: r.2.1, r.2.2)

/-- The while loop of waitForSuccessfulResult: the current response has
been fetched; while its state is not terminal, fetch the next (the sleep
between fetches has no observable effect on the response sequence).  On
the terminal response, succeed exactly when the state is SUCCEEDED.
Returns the number of status fetches attempted and the outcome. -/
def waitLoop (stateResponse : GetQueryExecutionCommandOutput)
    (pending : List GetQueryExecutionCommandOutput) (fetched : Nat) :
    Nat × Except QueryError Unit :=
  if isTerminalState (getState stateResponse) then
    if getState stateResponse = some "SUCCEEDED" then (fetched, .ok ())
    else (fetched, .error (.unsupportedState (getState stateResponse)))
  else
    match pending with
    | [] => (fetched + 1, .error .scriptExhausted)
    | r :: rest => waitLoop r rest (fetched + 1)

/-- waitForSuccessfulResult of src/index.tsx over the scripted status
responses: fetch once, then re-fetch while the state is not terminal. -/
def waitForSuccessfulResult (responses : List GetQueryExecutionCommandOutput) :
    Nat × Except QueryError Unit :=
  match responses with
  | [] => (1, .error .scriptExhausted)
  | r :: rest => waitLoop r rest 1

/-- The canned responses one run of the mock Athena client replays. -/
structure ClientScript where
  startResponse : StartQueryExecutionCommandOutput
  statusResponses : List GetQueryExecutionCommandOutput
  resultsResponses : List GetQueryResultsCommandOutput

instance {ε : Type u} {α : Type v} [DecidableEq ε] [DecidableEq α] : DecidableEq (Except ε α) := fun
  | .ok a, .ok b => decidable_of_iff (a = b) (by simp)
  | .ok _, .error _ => isFalse (by simp)
  | .error _, .ok _ => isFalse (by simp)
  | .error e, .error f => decidable_of_iff (e = f) (by simp)

/-- Observable trace of one processQuery invocation: the instance field
QueryExecutionId after the call, how many StartQueryExecution and
GetQueryExecution requests were sent, the GetQueryResults requests sent,
the batches delivered to the batch processor, and the outcome. -/
structure RunResult where
  QueryExecutionId : Option String
  startCalls : Nat
  statusFetches : Nat
  resultsRequests : List GetQueryResultsInput
  batches : List (List JsonObject)
  outcome : Except QueryError Unit
deriving DecidableEq

/-- processQuery of src/index.tsx: throw when the instance already holds
a QueryExecutionId; otherwise start the query (recording the returned id
and failing when it is absent), wait for a successful terminal state,
then fetch the results in batches. -/
def processQuery (QueryExecutionId : Option String) (script : ClientScript)
    (bp : BatchProcessor) : RunResult :=
  match QueryExecutionId with
  | some id =>
    { QueryExecutionId := some id, startCalls := 0, statusFetches := 0,
      resultsRequests := [], batches := [], outcome := .error .reuse }
  | none =>
    match script.startResponse.QueryExecutionId with
    | none =>
      { QueryExecutionId := none, startCalls := 1, statusFetches := 0,
        resultsRequests := [], batches := [], outcome := .error .noExecutionId }
    | some id =>
      let w := waitForSuccessfulResult script.statusResponses
      match w.2 with
      | .error e =>
        { QueryExecutionId := some id, startCalls := 1, statusFetches := w.1,
          resultsRequests := [], batches := [], outcome := .error e }
      | .ok _ =>
        let r := getResultsInBatches bp (some id) script.resultsResponses
        { QueryExecutionId := some id, startCalls := 1, statusFetches := w.1,
          resultsRequests := r.1, batches := r.2.1, outcome := r.2.2 }

/-! ### Helper lemmas -/

/-- The trace of a run always records the handle the submission returned. -/
lemma processQuery_queryExecutionId (script : ClientScript) (bp : BatchProcessor) :
    (processQuery none script bp).QueryExecutionId = script.startResponse.QueryExecutionId := by
  unfold processQuery
  cases hs : script.startResponse.QueryExecutionId with
  | none => rfl
  | some id =>
    cases hw : (waitForSuccessfulResult script.statusResponses).2 with
    | error e => simp [hw]
    | ok _ => simp [hw]

/-- A runner whose instance field already holds a handle rejects at once. -/
lemma processQuery_some (id : String) (script : ClientScript) (bp : BatchProcessor) :
    processQuery (some id) script bp =
      { QueryExecutionId := some id, startCalls := 0, statusFetches := 0,
        resultsRequests := [], batches := [], outcome := .error .reuse } := rfl

/-- The poll loop counts at least as many fetches as it started with. -/
lemma waitLoop_fst_ge (pending : List GetQueryExecutionCommandOutput) :
    ∀ (cur : GetQueryExecutionCommandOutput) (n : Nat), n ≤ (waitLoop cur pending n).1 := by
  induction pending with
  | nil =>
    intro cur n
    unfold waitLoop
    split
    · split <;> simp
    · simp
  | cons p rest ih =>
    intro cur n
    unfold waitLoop
    split
    · split <;> simp
    · exact le_trans (Nat.le_succ n) (ih p (n + 1))

/-- At least one status fetch is attempted. -/
lemma waitForSuccessfulResult_fst_pos (responses : List GetQueryExecutionCommandOutput) :
    1 ≤ (waitForSuccessfulResult responses).1 := by
  unfold waitForSuccessfulResult
  cases responses with
  | nil => simp
  | cons r rest => exact waitLoop_fst_ge rest r 1

/-- A non-200 http status makes getResults fail, first page or not. -/
lemma getResults_non200 (response : GetQueryResultsCommandOutput) (isFirstQuery : Bool)
    (fieldNames : List String) (h : response.httpStatusCode ≠ some 200) :
    getResults response isFirstQuery fieldNames = .error .getResultsFailed := by
  unfold getResults
  rw [if_pos h]

/-- A 200-status non-first page converts its rows with the field names it
was given and returns them unchanged. -/
lemma getResults_false (response : GetQueryResultsCommandOutput) (fieldNames : List String)
    (h200 : response.httpStatusCode = some 200) :
    getResults response false fieldNames =
      (pageRecords fieldNames response).map fun ds =>
        { Data := ds, NextToken := response.NextToken, fieldNames := fieldNames } := by
  unfold getResults pageRecords
  rw [if_neg (by simp [h200])]
  cases hr : response.ResultSet.bind fun rs => rs.Rows with
  | none => simp [Except.map]
  | some rs =>
    simp only
    cases hfr : fromRowsToJsonValues rs fieldNames <;> simp [hfr, Except.map]

/-! ### Concrete scripts used by witnesses and counterexamples -/

/-- A batch processor that accepts every batch. -/
def bpOk : BatchProcessor := fun _ => .ok ()

/-- A submission response carrying no QueryExecutionId. -/
def noHandleScript : ClientScript :=
  { startResponse := { QueryExecutionId := none }
    statusResponses := []
    resultsResponses := [] }

/-- Status response with state SUCCEEDED. -/
def succeededStatus : GetQueryExecutionCommandOutput :=
  { QueryExecution := some { Status := some { State := some "SUCCEEDED" } } }

/-- Status response with state FAILED. -/
def failedStatus : GetQueryExecutionCommandOutput :=
  { QueryExecution := some { Status := some { State := some "FAILED" } } }

/-- Status response with state QUEUED. -/
def queuedStatus : GetQueryExecutionCommandOutput :=
  { QueryExecution := some { Status := some { State := some "QUEUED" } } }

/-- A 200 page with no result set and no token. -/
def emptyOkPage : GetQueryResultsCommandOutput :=
  { httpStatusCode := some 200, ResultSet := none, NextToken := none }

/-- A run whose submission returns the empty-string handle. -/
def emptyHandleScript : ClientScript :=
  { startResponse := { QueryExecutionId := some "" }
    statusResponses := [succeededStatus]
    resultsResponses := [emptyOkPage] }

/-- A run that records handle qid and then reaches state FAILED. -/
def failedPollScript : ClientScript :=
  { startResponse := { QueryExecutionId := some "qid" }
    statusResponses := [failedStatus]
    resultsResponses := [] }

/-! ### Claim theorems -/

/-- C1 (amended): a second invocation of processQuery on the same
instance fails immediately with the reuse error exactly when the first
invocation recorded an execution handle, that is, when the submission
response carried a QueryExecutionId (however the first run ended after
that point); the rejected second invocation issues no service request
and delivers no batch, leaving the first run's observable effects
untouched.  The recorded handle is always the one the submission
returned, so a first run whose submission returned no handle leaves the
instance reusable. -/
theorem processQuery_reuse_after_recorded_handle
    (s1 s2 : ClientScript) (bp1 bp2 : BatchProcessor) (id : String)
    (h : (processQuery none s1 bp1).QueryExecutionId = some id) :
    processQuery (processQuery none s1 bp1).QueryExecutionId s2 bp2 =
      { QueryExecutionId := some id, startCalls := 0, statusFetches := 0,
        resultsRequests := [], batches := [], outcome := .error .reuse } ∧
    (processQuery none s1 bp1).QueryExecutionId = s1.startResponse.QueryExecutionId := by
  refine ⟨?_, processQuery_queryExecutionId s1 bp1⟩
  rw [h]
  exact processQuery_some id s2 bp2

/-- C1 witness: the first run records handle qid and then fails at the
polling stage; the second invocation still rejects with the reuse
error and performs no work. -/
theorem processQuery_reuse_after_recorded_handle_witness :
    processQuery (processQuery none failedPollScript bpOk).QueryExecutionId noHandleScript bpOk =
      { QueryExecutionId := some "qid", startCalls := 0, statusFetches := 0,
        resultsRequests := [], batches := [], outcome := .error .reuse } :=
  (processQuery_reuse_after_recorded_handle failedPollScript noHandleScript bpOk bpOk "qid"
    (by decide)).1

/-- C1 counterexample: when the first run ends with the submission
returning no handle, a second invocation of processQuery does not fail
with the reuse error; it submits the query again. -/
theorem processQuery_rerun_after_failed_submission :
    (processQuery none noHandleScript bpOk).outcome = .error .noExecutionId ∧
    (processQuery (processQuery none noHandleScript bpOk).QueryExecutionId
        noHandleScript bpOk).outcome ≠ .error .reuse ∧
    (processQuery (processQuery none noHandleScript bpOk).QueryExecutionId
        noHandleScript bpOk).startCalls = 1 :=
  ⟨rfl, by decide, rfl⟩

/-- C7 (amended): the run fails with the submission error, before any
status or results fetch and without invoking the consumer, exactly when
the submission response has an absent QueryExecutionId; any present
handle, the empty string included, is recorded internally and polling
proceeds. -/
theorem processQuery_submissionError_iff_absent_handle :
    (∀ (script : ClientScript) (bp : BatchProcessor),
      script.startResponse.QueryExecutionId = none →
      processQuery none script bp =
        { QueryExecutionId := none, startCalls := 1, statusFetches := 0,
          resultsRequests := [], batches := [], outcome := .error .noExecutionId }) ∧
    (∀ (script : ClientScript) (bp : BatchProcessor) (s : String),
      script.startResponse.QueryExecutionId = some s →
      (processQuery none script bp).QueryExecutionId = some s ∧
      (processQuery none script bp).startCalls = 1 ∧
      (processQuery none script bp).statusFetches =
        (waitForSuccessfulResult script.statusResponses).1 ∧
      1 ≤ (processQuery none script bp).statusFetches) := by
  constructor
  · intro script bp h
    simp [processQuery, h]
  · intro script bp s h
    have hpos := waitForSuccessfulResult_fst_pos script.statusResponses
    cases hw : (waitForSuccessfulResult script.statusResponses).2 with
    | error e => simp [processQuery, h, hw]; omega
    | ok u => simp [processQuery, h, hw]; omega

/-- C7 witness: a run with an absent handle fails with the submission
error and issues nothing further; a run with handle qid records it and
polls at least once. -/
theorem processQuery_submissionError_iff_absent_handle_witness :
    processQuery none noHandleScript bpOk =
      { QueryExecutionId := none, startCalls := 1, statusFetches := 0,
        resultsRequests := [], batches := [], outcome := .error .noExecutionId } ∧
    (processQuery none failedPollScript bpOk).QueryExecutionId = some "qid" ∧
    1 ≤ (processQuery none failedPollScript bpOk).statusFetches :=
  ⟨processQuery_submissionError_iff_absent_handle.1 noHandleScript bpOk rfl,
   (processQuery_submissionError_iff_absent_handle.2 failedPollScript bpOk "qid" rfl).1,
   (processQuery_submissionError_iff_absent_handle.2 failedPollScript bpOk "qid" rfl).2.2.2⟩

/-- C7 counterexample: a submission response carrying the empty-string
handle is not rejected: the run records the empty handle, fetches the
status, fetches a results page and completes, instead of failing with a
submission error before any status fetch. -/
theorem processQuery_accepts_empty_handle :
    processQuery none emptyHandleScript bpOk =
      { QueryExecutionId := some "", startCalls := 1, statusFetches := 1,
        resultsRequests := [{ QueryExecutionId := some "", NextToken := none }],
        batches := [[]], outcome := .ok () } := by decide

/-- C8: a page fetch whose http status is not 200 fails the run with the
retrieval error: this holds for getResults on any page, first or
subsequent; inside the pagination loop the failing fetch delivers no
batch; and a run whose first page fetch reports a non-200 status ends
with the retrieval error after issuing exactly that one results request
and without ever invoking the consumer. -/
theorem getResults_retrievalError_on_non200 :
    (∀ (response : GetQueryResultsCommandOutput) (isFirstQuery : Bool) (fieldNames : List String),
      response.httpStatusCode ≠ some 200 →
      getResults response isFirstQuery fieldNames = .error .getResultsFailed) ∧
    (∀ (bp : BatchProcessor) (id : Option String) (fieldNames : List String) (tok : String)
      (page : GetQueryResultsCommandOutput) (rest : List GetQueryResultsCommandOutput),
      page.httpStatusCode ≠ some 200 →
      runPages bp id fieldNames tok (page :: rest) =
        ([{ QueryExecutionId := id, NextToken := some tok }], [], .error .getResultsFailed)) ∧
    (∀ (script : ClientScript) (bp : BatchProcessor) (id : String) (n : Nat)
      (page : GetQueryResultsCommandOutput) (rest : List GetQueryResultsCommandOutput),
      script.startResponse.QueryExecutionId = some id →
      waitForSuccessfulResult script.statusResponses = (n, .ok ()) →
      script.resultsResponses = page :: rest →
      page.httpStatusCode ≠ some 200 →
      processQuery none script bp =
        { QueryExecutionId := some id, startCalls := 1, statusFetches := n,
          resultsRequests := [{ QueryExecutionId := some id, NextToken := none }],
          batches := [], outcome := .error .getResultsFailed }) := by
  refine ⟨fun r f fns h => getResults_non200 r f fns h, ?_, ?_⟩
  · intro bp id fieldNames tok page rest h
    simp [runPages, getResults_non200 page false fieldNames h]
  · intro script bp id n page rest hstart hwait hpages h
    simp [processQuery, hstart, hwait, hpages, getResultsInBatches,
      getResults_non200 page true [] h]

/-- C8 witness: a run whose single results page reports status 500
fails with the retrieval error and never invokes the consumer. -/
theorem getResults_retrievalError_on_non200_witness :
    processQuery none
      { startResponse := { QueryExecutionId := some "qid" }
        statusResponses := [succeededStatus]
        resultsResponses := [{ httpStatusCode := some 500, ResultSet := none, NextToken := none }] }
      bpOk =
      { QueryExecutionId := some "qid", startCalls := 1, statusFetches := 1,
        resultsRequests := [{ QueryExecutionId := some "qid", NextToken := none }],
        batches := [], outcome := .error .getResultsFailed } :=
  getResults_retrievalError_on_non200.2.2
    { startResponse := { QueryExecutionId := some "qid" }
      statusResponses := [succeededStatus]
      resultsResponses := [{ httpStatusCode := some 500, ResultSet := none, NextToken := none }] }
    bpOk "qid" 1 { httpStatusCode := some 500, ResultSet := none, NextToken := none } []
    rfl (by decide) rfl (by decide)

/-- The poll loop stops at the first terminal response: it fetches past
every leading non-terminal response and settles on the first terminal
one, succeeding exactly when that state is SUCCEEDED. -/
lemma waitLoop_first_terminal :
    ∀ (pending : List GetQueryExecutionCommandOutput) (cur : GetQueryExecutionCommandOutput)
      (n k : Nat) (hk : k < (cur :: pending).length)
      (hterm : isTerminalState (getState ((cur :: pending).get ⟨k, hk⟩)) = true)
      (hpre : ∀ j (hj : j < k),
        isTerminalState (getState ((cur :: pending).get ⟨j, hj.trans hk⟩)) = false),
      waitLoop cur pending n =
        (n + k,
         if getState ((cur :: pending).get ⟨k, hk⟩) = some "SUCCEEDED" then .ok ()
         else .error (.unsupportedState (getState ((cur :: pending).get ⟨k, hk⟩)))) := by
  intro pending
  induction pending with
  | nil =>
    intro cur n k hk hterm hpre
    have hk0 : k = 0 := by
      have : k < 1 := by simpa using hk
      omega
    subst hk0
    simp only [List.get] at hterm ⊢
    unfold waitLoop
    rw [hterm, if_pos rfl]
    by_cases hs : getState cur = some "SUCCEEDED" <;> simp [hs]
  | cons p rest ih =>
    intro cur n k hk hterm hpre
    cases k with
    | zero =>
      simp only [List.get] at hterm ⊢
      unfold waitLoop
      rw [hterm, if_pos rfl]
      by_cases hs : getState cur = some "SUCCEEDED" <;> simp [hs]
    | succ j =>
      have hcur : isTerminalState (getState cur) = false := by
        have := hpre 0 (Nat.succ_pos j)
        simpa [List.get] using this
      have hj : j < (p :: rest).length := by
        simpa using Nat.lt_of_succ_lt_succ hk
      have hterm2 : isTerminalState (getState ((p :: rest).get ⟨j, hj⟩)) = true := hterm
      have hpre2 : ∀ i (hi : i < j),
          isTerminalState (getState ((p :: rest).get ⟨i, hi.trans hj⟩)) = false := by
        intro i hi
        exact hpre (i + 1) (Nat.succ_lt_succ hi)
      have step : waitLoop cur (p :: rest) n = waitLoop p rest (n + 1) := by
        conv_lhs => unfold waitLoop
        rw [hcur]
        simp
      rw [step, ih p (n + 1) j hj hterm2 hpre2]
      have harith : n + 1 + j = n + (j + 1) := by omega
      rw [harith]
      rfl

/-- C2: over a status sequence whose first terminal entry (a state that
is neither QUEUED nor RUNNING) sits at index k, the polling stage
fetches exactly the k + 1 first responses, stopping at the terminal
one; it returns normally precisely when that terminal state is
SUCCEEDED and otherwise fails with an error embedding the observed
terminal state; and whenever the terminal state is not SUCCEEDED the
run issues no results fetch and never invokes the consumer. -/
theorem waitForSuccessfulResult_stops_at_first_terminal
    (responses : List GetQueryExecutionCommandOutput) (k : Nat)
    (hk : k < responses.length)
    (hterm : isTerminalState (getState (responses.get ⟨k, hk⟩)) = true)
    (hpre : ∀ j (hj : j < k),
      isTerminalState (getState (responses.get ⟨j, hj.trans hk⟩)) = false) :
    waitForSuccessfulResult responses =
      (k + 1,
       if getState (responses.get ⟨k, hk⟩) = some "SUCCEEDED" then .ok ()
       else .error (.unsupportedState (getState (responses.get ⟨k, hk⟩)))) ∧
    (∀ (start : StartQueryExecutionCommandOutput)
       (pages : List GetQueryResultsCommandOutput) (bp : BatchProcessor),
      getState (responses.get ⟨k, hk⟩) ≠ some "SUCCEEDED" →
      (processQuery none
        { startResponse := start, statusResponses := responses, resultsResponses := pages }
        bp).resultsRequests = [] ∧
      (processQuery none
        { startResponse := start, statusResponses := responses, resultsResponses := pages }
        bp).batches = []) := by
  have hmain : waitForSuccessfulResult responses =
      (k + 1,
       if getState (responses.get ⟨k, hk⟩) = some "SUCCEEDED" then .ok ()
       else .error (.unsupportedState (getState (responses.get ⟨k, hk⟩)))) := by
    cases responses with
    | nil => exact absurd hk (by simp)
    | cons r rest =>
      have hw : waitForSuccessfulResult (r :: rest) = waitLoop r rest 1 := rfl
      rw [hw, waitLoop_first_terminal rest r 1 k hk hterm hpre]
      rw [Nat.add_comm 1 k]
  refine ⟨hmain, ?_⟩
  intro start pages bp hne
  cases hs : start.QueryExecutionId with
  | none => simp [processQuery, hs]
  | some id =>
    have hne2 : ¬ getState responses[k] = some "SUCCEEDED" := hne
    have hw : (waitForSuccessfulResult responses).2 =
        .error (.unsupportedState (getState (responses.get ⟨k, hk⟩))) := by
      rw [hmain]
      simp [hne2]
    constructor <;> simp [processQuery, hs, hw, hne2]

/-- C2 witness: the status sequence QUEUED then FAILED is polled twice,
stops at FAILED, fails with an error embedding FAILED, and the run over
it issues no results fetch. -/
theorem waitForSuccessfulResult_stops_at_first_terminal_witness :
    waitForSuccessfulResult [queuedStatus, failedStatus] =
      (2, .error (.unsupportedState (some "FAILED"))) ∧
    (processQuery none
      { startResponse := { QueryExecutionId := some "qid" }
        statusResponses := [queuedStatus, failedStatus]
        resultsResponses := [] }
      bpOk).resultsRequests = [] := by
  have h := waitForSuccessfulResult_stops_at_first_terminal [queuedStatus, failedStatus] 1
    (by decide) (by decide) (by decide)
  exact ⟨by simpa using h.1,
    (h.2 { QueryExecutionId := some "qid" } [] bpOk (by decide)).1⟩

/-- The field names the spec prescribes for a header row: the ordered
list of each header cell's textual value, with the synthesized name
col<index> (0-based) for a cell whose value is absent. -/
def specHeaderNames (hdr : Row) : List String :=
  (hdr.Data.getD []).enum.map fun p =>
    match p.2.VarCharValue with
    | none => "col" ++ toString p.1
    | some v => v

/-- On a 200-status first page whose row list is hdr followed by rest,
getResults drops hdr and converts rest under the header-derived names. -/
lemma getResults_true_eq
    (response : GetQueryResultsCommandOutput) (hdr : Row) (rest : List Row)
    (fns0 : List String)
    (h200 : response.httpStatusCode = some 200)
    (hrows : response.ResultSet.bind (fun rs => rs.Rows) = some (hdr :: rest)) :
    getResults response true fns0 =
      (fromRowsToJsonValues rest (specHeaderNames hdr)).map (fun ds =>
        { Data := ds, NextToken := response.NextToken,
          fieldNames := specHeaderNames hdr }) := by
  cases hd : hdr.Data with
  | none =>
    simp [getResults, h200, hrows, specHeaderNames, hd, Except.map]
    split <;> rename_i heq <;> simp [heq, Except.map]
  | some ds =>
    simp [getResults, h200, hrows, specHeaderNames, hd, Except.map]
    split <;> rename_i heq <;> simp [heq, Except.map]

/-- C4: on a 200-status first page whose row list is hdr followed by
rest, getResults treats hdr as the header and removes it: the converted
data rows are exactly rest, converted under the field names prescribed
by the spec (cell value, or col<index> when the cell value is absent),
and those derived field names have exactly one name per header cell, in
header-cell order; on a non-first page no header is extracted and the
given field names pass through unchanged. -/
theorem getResults_firstPage_header
    (response : GetQueryResultsCommandOutput) (hdr : Row) (rest : List Row)
    (fns0 : List String)
    (h200 : response.httpStatusCode = some 200)
    (hrows : response.ResultSet.bind (fun rs => rs.Rows) = some (hdr :: rest)) :
    getResults response true fns0 =
      (fromRowsToJsonValues rest (specHeaderNames hdr)).map (fun ds =>
        { Data := ds, NextToken := response.NextToken,
          fieldNames := specHeaderNames hdr }) ∧
    (specHeaderNames hdr).length = (hdr.Data.getD []).length ∧
    (∀ i : Nat,
      (specHeaderNames hdr)[i]? =
        ((hdr.Data.getD [])[i]?).map fun d =>
          match d.VarCharValue with
          | none => "col" ++ toString i
          | some v => v) ∧
    (∀ (r : GetQueryResultsCommandOutput) (fns : List String),
      r.httpStatusCode = some 200 →
      getResults r false fns =
        (pageRecords fns r).map fun ds =>
          { Data := ds, NextToken := r.NextToken, fieldNames := fns }) := by
  refine ⟨getResults_true_eq response hdr rest fns0 h200 hrows, ?_, ?_,
    fun r fns h => getResults_false r fns h⟩
  · simp [specHeaderNames]
  · intro i
    simp only [specHeaderNames, List.getElem?_map, List.getElem?_enum]
    cases (hdr.Data.getD [])[i]? <;> simp

/-- Header row for the C4 witness: a named cell then an absent cell. -/
def w4hdr : Row := { Data := some [{ VarCharValue := some "name" }, { VarCharValue := none }] }

/-- Data row for the C4 witness. -/
def w4row : Row := { Data := some [{ VarCharValue := some "Ada" }, { VarCharValue := some "42" }] }

/-- First page for the C4 witness. -/
def w4resp : GetQueryResultsCommandOutput :=
  { httpStatusCode := some 200
    ResultSet := some { Rows := some [w4hdr, w4row] }
    NextToken := none }

/-- C4 witness: a first page whose header holds the cell name and an
absent cell yields field names name and col1, the header row is removed
and the remaining row converts under those names. -/
theorem getResults_firstPage_header_witness :
    getResults w4resp true [] =
      .ok { Data := [[("name", some "Ada"), ("col1", some "42")]],
            NextToken := none, fieldNames := ["name", "col1"] } ∧
    (specHeaderNames w4hdr).length = 2 := by
  have h := getResults_firstPage_header w4resp w4hdr [w4row] [] rfl rfl
  exact ⟨h.1.trans (by decide), h.2.1.trans (by decide)⟩

/-- Every error rowDataLoop produces is the header-too-short error. -/
lemma rowDataLoop_error_eq :
    ∀ (ds : List Datum) (fieldNames : List String) (result : JsonObject) (index : Nat)
      (e : QueryError),
      rowDataLoop fieldNames result index ds = .error e → e = .headerTooShort := by
  intro ds
  induction ds with
  | nil =>
    intro fns res idx e h
    simp [rowDataLoop] at h
  | cons d rest ih =>
    intro fns res idx e h
    unfold rowDataLoop at h
    split at h
    · injection h with h2
      exact h2.symm
    · split at h
      · injection h with h2
        exact h2.symm
      · exact ih fns _ (idx + 1) e h

/-- rowDataLoop fails exactly when some cell position has no field name
or an empty field name. -/
lemma rowDataLoop_error_iff :
    ∀ (ds : List Datum) (fieldNames : List String) (result : JsonObject) (index : Nat),
      rowDataLoop fieldNames result index ds = .error .headerTooShort ↔
        ∃ j, j < ds.length ∧
          (fieldNames.length ≤ index + j ∨ fieldNames[index + j]? = some "") := by
  intro ds
  induction ds with
  | nil =>
    intro fns res idx
    simp [rowDataLoop]
  | cons d rest ih =>
    intro fns res idx
    unfold rowDataLoop
    split
    · rename_i hfn
      have hlen : fns.length ≤ idx := by
        rwa [List.getElem?_eq_none_iff] at hfn
      constructor
      · intro _
        exact ⟨0, by simp, Or.inl (by simpa using hlen)⟩
      · intro _
        rfl
    · rename_i fn hfn
      have hidx : idx < fns.length := by
        by_contra hge
        rw [List.getElem?_eq_none_iff.mpr (by omega)] at hfn
        cases hfn
      split
      · rename_i hemp
        subst hemp
        constructor
        · intro _
          exact ⟨0, by simp, Or.inr (by simpa using hfn)⟩
        · intro _
          rfl
      · rename_i hemp
        rw [ih fns (objInsert res fn d.VarCharValue) (idx + 1)]
        constructor
        · rintro ⟨j, hj, hbad⟩
          refine ⟨j + 1, by simp only [List.length_cons]; omega, ?_⟩
          have harith : idx + (j + 1) = idx + 1 + j := by omega
          rw [harith]
          exact hbad
        · rintro ⟨j, hj, hbad⟩
          cases j with
          | zero =>
            rcases hbad with hlen | hempty
            · omega
            · simp only [Nat.add_zero, hfn] at hempty
              exact absurd (Option.some.inj hempty) hemp
          | succ j =>
            refine ⟨j, by simp only [List.length_cons] at hj; omega, ?_⟩
            have harith : idx + 1 + j = idx + (j + 1) := by omega
            rw [harith]
            exact hbad

/-- Every error fromRowsToJsonValues produces is the header-too-short
error. -/
lemma fromRowsToJsonValues_error_eq :
    ∀ (rows : List Row) (fieldNames : List String) (e : QueryError),
      fromRowsToJsonValues rows fieldNames = .error e → e = .headerTooShort := by
  intro rows
  induction rows with
  | nil =>
    intro fns e h
    simp [fromRowsToJsonValues] at h
  | cons row rest ih =>
    intro fns e h
    unfold fromRowsToJsonValues at h
    split at h
    · rename_i e0 hr
      injection h with h2
      rw [← h2]
      exact rowDataLoop_error_eq _ fns [] 0 e0 hr
    · rename_i obj hr
      split at h
      · rename_i e1 hrest
        injection h with h2
        rw [← h2]
        exact ih fns e1 hrest
      · exact Except.noConfusion h

/-- C3 (amended): converting rows throws the header-too-short error if
and only if some row occupies a cell position that is beyond the
FieldNames length or whose field name is the empty string; in
particular a row with more positional values than FieldNames length
always throws, but a row that fits can also throw when one of its field
names is the empty string. -/
theorem fromRowsToJsonValues_headerTooShort_iff
    (rows : List Row) (fieldNames : List String) :
    fromRowsToJsonValues rows fieldNames = .error .headerTooShort ↔
      ∃ row ∈ rows, ∃ i, i < (row.Data.getD []).length ∧
        (fieldNames.length ≤ i ∨ fieldNames[i]? = some "") := by
  induction rows with
  | nil => simp [fromRowsToJsonValues]
  | cons row rest ih =>
    have hloop := rowDataLoop_error_iff (row.Data.getD []) fieldNames [] 0
    simp only [Nat.zero_add] at hloop
    unfold fromRowsToJsonValues
    split
    · rename_i e0 hr
      have he0 : e0 = .headerTooShort := rowDataLoop_error_eq _ fieldNames [] 0 e0 hr
      subst he0
      have hbad := hloop.mp hr
      constructor
      · intro _
        obtain ⟨j, hj, h⟩ := hbad
        exact ⟨row, by simp, j, hj, h⟩
      · intro _
        rfl
    · rename_i obj hr
      have hnone : ¬ ∃ i, i < (row.Data.getD []).length ∧
          (fieldNames.length ≤ i ∨ fieldNames[i]? = some "") := by
        intro hex
        obtain ⟨i, hi, h⟩ := hex
        have hcontra := hloop.mpr ⟨i, hi, h⟩
        rw [hr] at hcontra
        cases hcontra
      split
      · rename_i e1 hrest
        have he1 : e1 = .headerTooShort := fromRowsToJsonValues_error_eq rest fieldNames e1 hrest
        subst he1
        have hrhs := ih.mp hrest
        constructor
        · intro _
          obtain ⟨row1, hmem, j, hj, h⟩ := hrhs
          exact ⟨row1, List.mem_cons_of_mem row hmem, j, hj, h⟩
        · intro _
          rfl
      · rename_i objs hrest
        constructor
        · intro h
          exact Except.noConfusion h
        · rintro ⟨row1, hmem, j, hj, h⟩
          rcases List.mem_cons.mp hmem with hhead | htail
          · subst hhead
            exact absurd ⟨j, hj, h⟩ hnone
          · have hcontra := ih.mpr ⟨row1, htail, j, hj, h⟩
            rw [hrest] at hcontra
            cases hcontra

/-- C3 counterexample: with the single field name being the empty
string, a one-cell row does not have more positional values than the
FieldNames length, yet conversion throws the header-too-short error,
refuting the claimed equivalence. -/
theorem fromRowsToJsonValues_throws_on_empty_header_name :
    fromRowsToJsonValues [{ Data := some [{ VarCharValue := some "x" }] }] [""] =
      .error .headerTooShort ∧
    ¬ (([""] : List String).length <
        (({ Data := some [{ VarCharValue := some "x" }] } : Row).Data.getD []).length) :=
  ⟨rfl, by decide⟩

/-- The pagination loop over a chain of pages in which every page but
the last carries a continuation token and the last carries none: it
issues one request per page, the first with the entry token and each
further one with the token of the page before it, delivers one batch
per page in page order, and finishes cleanly. -/
lemma runPages_ok_of_chain :
    ∀ (pages : List GetQueryResultsCommandOutput) (recs : List (List JsonObject))
      (bp : BatchProcessor) (id : Option String) (fns : List String) (tok : String),
      pages ≠ [] →
      (∀ p ∈ pages, p.httpStatusCode = some 200) →
      pages.map (pageRecords fns) = recs.map Except.ok →
      (∀ r ∈ recs, bp r = .ok ()) →
      (∀ i (hi : i < pages.length),
        ((pages.get ⟨i, hi⟩).NextToken = none ↔ i + 1 = pages.length)) →
      runPages bp id fns tok pages =
        ((some tok :: pages.dropLast.map fun p => p.NextToken).map
            (fun t => { QueryExecutionId := id, NextToken := t }),
         recs, .ok ()) := by
  intro pages
  induction pages with
  | nil =>
    intro recs bp id fns tok hne
    exact absurd rfl hne
  | cons page rest ih =>
    intro recs bp id fns tok hne h200 hconv hbp hchain
    have h200p : page.httpStatusCode = some 200 := h200 page (by simp)
    cases recs with
    | nil => simp at hconv
    | cons r recs2 =>
      simp only [List.map_cons, List.cons.injEq] at hconv
      obtain ⟨hr, hrest⟩ := hconv
      have hget : getResults page false fns =
          .ok { Data := r, NextToken := page.NextToken, fieldNames := fns } := by
        rw [getResults_false page fns h200p, hr]
        rfl
      cases rest with
      | nil =>
        have hnt : page.NextToken = none := by
          have h := (hchain 0 (by simp)).mpr (by simp)
          simpa using h
        have hrecs2 : recs2 = [] := by
          cases recs2 with
          | nil => rfl
          | cons a b => simp at hrest
        subst hrecs2
        simp [runPages, hget, hbp r (by simp), hnt]
      | cons q rest2 =>
        have hsome : page.NextToken ≠ none := by
          intro hnone
          have h := (hchain 0 (by simp)).mp (by simpa using hnone)
          simp at h
        obtain ⟨tok2, htok2⟩ := Option.ne_none_iff_exists'.mp hsome
        have hchain2 : ∀ i (hi : i < (q :: rest2).length),
            ((q :: rest2).get ⟨i, hi⟩).NextToken = none ↔ i + 1 = (q :: rest2).length := by
          intro i hi
          have hi2 : i + 1 < (page :: q :: rest2).length := by
            simp only [List.length_cons] at hi ⊢
            omega
          have h := hchain (i + 1) hi2
          constructor
          · intro hnt
            have h2 := h.mp hnt
            simp only [List.length_cons] at h2 ⊢
            omega
          · intro hlen
            apply h.mpr
            simp only [List.length_cons] at hlen ⊢
            omega
        have ihr := ih recs2 bp id fns tok2 (by simp)
          (fun p hp => h200 p (by simp [hp]))
          hrest
          (fun r2 hr2 => hbp r2 (by simp [hr2]))
          hchain2
        conv_lhs => rw [runPages]
        simp only [hget, hbp r (by simp), htok2]
        rw [ihr]
        simp [htok2]

/-- getResults always passes the continuation token of the response
through to its output. -/
lemma getResults_ok_NextToken (response : GetQueryResultsCommandOutput)
    (isFirstQuery : Bool) (fieldNames : List String) (out : GetResultOutput)
    (h : getResults response isFirstQuery fieldNames = .ok out) :
    out.NextToken = response.NextToken := by
  unfold getResults at h
  split at h
  · exact Except.noConfusion h
  · split at h
    · dsimp only at h
      split at h
      · split at h
        · injection h with h2
          rw [← h2]
        · exact Except.noConfusion h
      · injection h with h2
        rw [← h2]
    · dsimp only at h
      split at h
      · split at h
        · injection h with h2
          rw [← h2]
        · exact Except.noConfusion h
      · injection h with h2
        rw [← h2]

/-- Dropping the head of a token chain keeps it a token chain. -/
lemma tokenChain_shift (page : GetQueryResultsCommandOutput)
    (rest : List GetQueryResultsCommandOutput)
    (hchain : ∀ i (hi : i < (page :: rest).length),
      (((page :: rest).get ⟨i, hi⟩).NextToken = none ↔ i + 1 = (page :: rest).length)) :
    ∀ i (hi : i < rest.length),
      ((rest.get ⟨i, hi⟩).NextToken = none ↔ i + 1 = rest.length) := by
  intro i hi
  have hi2 : i + 1 < (page :: rest).length := by
    simp only [List.length_cons]
    omega
  have h := hchain (i + 1) hi2
  constructor
  · intro hnt
    have h2 := h.mp hnt
    simp only [List.length_cons] at h2
    omega
  · intro hlen
    apply h.mpr
    simp only [List.length_cons]
    omega

/-- C5: over a finite chain of 200-status result pages in which every
page but the last carries a continuation token and the last carries
none, with all conversions succeeding and the consumer accepting every
batch, the pagination loop issues exactly one request per page — the
first with no token and each later one with the token carried by the
page before it, always with the same execution id — invokes the
consumer exactly once per page with that page's records converted under
the field names derived from page 1, terminates after the tokenless
page, and delivers the batches in page order. -/
theorem getResultsInBatches_paginates_in_token_order
    (bp : BatchProcessor) (id : Option String)
    (pfirst : GetQueryResultsCommandOutput) (rest : List GetQueryResultsCommandOutput)
    (out0 : GetResultOutput) (recs : List (List JsonObject))
    (h200 : ∀ p ∈ pfirst :: rest, p.httpStatusCode = some 200)
    (hfirst : getResults pfirst true [] = .ok out0)
    (hconv : rest.map (pageRecords out0.fieldNames) = recs.map Except.ok)
    (hbp0 : bp out0.Data = .ok ())
    (hbp : ∀ r ∈ recs, bp r = .ok ())
    (hchain : ∀ i (hi : i < (pfirst :: rest).length),
      (((pfirst :: rest).get ⟨i, hi⟩).NextToken = none ↔ i + 1 = (pfirst :: rest).length)) :
    getResultsInBatches bp id (pfirst :: rest) =
      ((none :: (pfirst :: rest).dropLast.map fun p => p.NextToken).map
          (fun t => { QueryExecutionId := id, NextToken := t }),
       out0.Data :: recs, .ok ()) := by
  have hout0 : out0.NextToken = pfirst.NextToken :=
    getResults_ok_NextToken pfirst true [] out0 hfirst
  cases rest with
  | nil =>
    have hnt : pfirst.NextToken = none := by
      have h := (hchain 0 (by simp)).mpr (by simp)
      simpa using h
    have hrecs : recs = [] := by
      cases recs with
      | nil => rfl
      | cons a b => simp at hconv
    subst hrecs
    conv_lhs => rw [getResultsInBatches]
    simp only [hfirst, hbp0, hout0, hnt]
    simp
  | cons q rest2 =>
    have hsome : pfirst.NextToken ≠ none := by
      intro hnone
      have h := (hchain 0 (by simp)).mp (by simpa using hnone)
      simp at h
    obtain ⟨tok0, htok0⟩ := Option.ne_none_iff_exists'.mp hsome
    have hrun := runPages_ok_of_chain (q :: rest2) recs bp id out0.fieldNames tok0
      (by simp) (fun p hp => h200 p (by simp [hp])) hconv hbp
      (tokenChain_shift pfirst (q :: rest2) hchain)
    conv_lhs => rw [getResultsInBatches]
    simp only [hfirst, hbp0, hout0, htok0]
    rw [hrun]
    simp [htok0]

/-- First page for the C5 and C10 witnesses: header plus one data row,
with a continuation token. -/
def w5p1 : GetQueryResultsCommandOutput :=
  { httpStatusCode := some 200
    ResultSet := some { Rows := some [
      { Data := some [{ VarCharValue := some "city" }, { VarCharValue := some "pop" }] },
      { Data := some [{ VarCharValue := some "Oslo" }, { VarCharValue := some "7" }] }] }
    NextToken := some "t1" }

/-- Second page for the C5 and C10 witnesses: one data row, no token. -/
def w5p2 : GetQueryResultsCommandOutput :=
  { httpStatusCode := some 200
    ResultSet := some { Rows := some [
      { Data := some [{ VarCharValue := some "Bergen" }, { VarCharValue := some "3" }] }] }
    NextToken := none }

/-- C5 witness: a two-page chain is fetched in token order under one
execution id, the consumer sees one batch per page, and the page-1
field names convert page 2. -/
theorem getResultsInBatches_paginates_in_token_order_witness :
    getResultsInBatches bpOk (some "qid") [w5p1, w5p2] =
      ([{ QueryExecutionId := some "qid", NextToken := none },
        { QueryExecutionId := some "qid", NextToken := some "t1" }],
       [[[("city", some "Oslo"), ("pop", some "7")]],
        [[("city", some "Bergen"), ("pop", some "3")]]],
       .ok ()) := by
  have h := getResultsInBatches_paginates_in_token_order bpOk (some "qid") w5p1 [w5p2]
    { Data := [[("city", some "Oslo"), ("pop", some "7")]]
      NextToken := some "t1"
      fieldNames := ["city", "pop"] }
    [[[("city", some "Bergen"), ("pop", some "3")]]]
    (by decide) (by decide) (by decide) rfl
    (fun r hr => rfl) (by decide)
  exact h.trans (by decide)

/-- The pagination loop when every page before position k succeeds and
the consumer rejects the batch of page k: the loop stops right there,
with one request per fetched page and the error of the consumer. -/
lemma runPages_consumerFail :
    ∀ (mid : List GetQueryResultsCommandOutput) (recsM : List (List JsonObject))
      (bp : BatchProcessor) (id : Option String) (fns : List String) (tok : String)
      (pk : GetQueryResultsCommandOutput) (rest : List GetQueryResultsCommandOutput)
      (rk : List JsonObject) (e : String),
      (∀ p ∈ mid, p.httpStatusCode = some 200) →
      mid.map (pageRecords fns) = recsM.map Except.ok →
      (∀ r ∈ recsM, bp r = .ok ()) →
      (∀ p ∈ mid, p.NextToken ≠ none) →
      pk.httpStatusCode = some 200 →
      pageRecords fns pk = .ok rk →
      bp rk = .error e →
      runPages bp id fns tok (mid ++ pk :: rest) =
        ((some tok :: mid.map fun p => p.NextToken).map
            (fun t => { QueryExecutionId := id, NextToken := t }),
         recsM ++ [rk], .error (.consumer e)) := by
  intro mid
  induction mid with
  | nil =>
    intro recsM bp id fns tok pk rest rk e h200m hconvM hbpM htokM h200k hconvK hbpK
    have hrecsM : recsM = [] := by
      cases recsM with
      | nil => rfl
      | cons a b => simp at hconvM
    subst hrecsM
    have hget : getResults pk false fns =
        .ok { Data := rk, NextToken := pk.NextToken, fieldNames := fns } := by
      rw [getResults_false pk fns h200k, hconvK]
      rfl
    conv_lhs => rw [List.nil_append, runPages]
    simp [hget, hbpK]
  | cons m mid2 ih =>
    intro recsM bp id fns tok pk rest rk e h200m hconvM hbpM htokM h200k hconvK hbpK
    cases recsM with
    | nil => simp at hconvM
    | cons r recs2 =>
      simp only [List.map_cons, List.cons.injEq] at hconvM
      obtain ⟨hr, hrest⟩ := hconvM
      have hget : getResults m false fns =
          .ok { Data := r, NextToken := m.NextToken, fieldNames := fns } := by
        rw [getResults_false m fns (h200m m (by simp)), hr]
        rfl
      obtain ⟨tok2, htok2⟩ := Option.ne_none_iff_exists'.mp (htokM m (by simp))
      have ihr := ih recs2 bp id fns tok2 pk rest rk e
        (fun p hp => h200m p (by simp [hp])) hrest
        (fun r2 hr2 => hbpM r2 (by simp [hr2]))
        (fun p hp => htokM p (by simp [hp])) h200k hconvK hbpK
      conv_lhs => rw [List.cons_append, runPages]
      simp only [hget, hbpM r (by simp), htok2]
      rw [ihr]
      simp [htok2]

/-- C10: when the batch consumer rejects the batch of some page k, the
whole run rejects with that same error: one request was issued per page
up to and including page k, no page after k is requested, the batches
of the pages before k stay delivered and the batch of page k itself was
delivered to the consumer.  Stated for k the first page and for k at an
arbitrary later position (mid is the list of pages strictly between the
first page and page k). -/
theorem processQuery_consumer_rejection_stops_run :
    (∀ (script : ClientScript) (bp : BatchProcessor) (id : String) (n : Nat)
       (p : GetQueryResultsCommandOutput) (rest : List GetQueryResultsCommandOutput)
       (out0 : GetResultOutput) (e : String),
      script.startResponse.QueryExecutionId = some id →
      waitForSuccessfulResult script.statusResponses = (n, .ok ()) →
      script.resultsResponses = p :: rest →
      getResults p true [] = .ok out0 →
      bp out0.Data = .error e →
      processQuery none script bp =
        { QueryExecutionId := some id, startCalls := 1, statusFetches := n,
          resultsRequests := [{ QueryExecutionId := some id, NextToken := none }],
          batches := [out0.Data], outcome := .error (.consumer e) }) ∧
    (∀ (script : ClientScript) (bp : BatchProcessor) (id : String) (n : Nat)
       (pfirst : GetQueryResultsCommandOutput) (mid : List GetQueryResultsCommandOutput)
       (pk : GetQueryResultsCommandOutput) (rest : List GetQueryResultsCommandOutput)
       (out0 : GetResultOutput) (recsM : List (List JsonObject))
       (rk : List JsonObject) (e : String) (tok0 : String),
      script.startResponse.QueryExecutionId = some id →
      waitForSuccessfulResult script.statusResponses = (n, .ok ()) →
      script.resultsResponses = pfirst :: (mid ++ pk :: rest) →
      getResults pfirst true [] = .ok out0 →
      bp out0.Data = .ok () →
      pfirst.NextToken = some tok0 →
      (∀ p ∈ mid, p.httpStatusCode = some 200) →
      mid.map (pageRecords out0.fieldNames) = recsM.map Except.ok →
      (∀ r ∈ recsM, bp r = .ok ()) →
      (∀ p ∈ mid, p.NextToken ≠ none) →
      pk.httpStatusCode = some 200 →
      pageRecords out0.fieldNames pk = .ok rk →
      bp rk = .error e →
      processQuery none script bp =
        { QueryExecutionId := some id, startCalls := 1, statusFetches := n,
          resultsRequests :=
            { QueryExecutionId := some id, NextToken := none } ::
              (some tok0 :: mid.map fun p => p.NextToken).map
                (fun t => { QueryExecutionId := some id, NextToken := t }),
          batches := out0.Data :: (recsM ++ [rk]),
          outcome := .error (.consumer e) }) := by
  constructor
  · intro script bp id n p rest out0 e hstart hwait hpages hfirst hbperr
    have hloop : getResultsInBatches bp (some id) (p :: rest) =
        ([{ QueryExecutionId := some id, NextToken := none }], [out0.Data],
         .error (.consumer e)) := by
      conv_lhs => rw [getResultsInBatches]
      simp [hfirst, hbperr]
    simp [processQuery, hstart, hwait, hpages, hloop]
  · intro script bp id n pfirst mid pk rest out0 recsM rk e tok0
      hstart hwait hpages hfirst hbp0 htok0 h200m hconvM hbpM htokM h200k hconvK hbpK
    have hout0 : out0.NextToken = pfirst.NextToken :=
      getResults_ok_NextToken pfirst true [] out0 hfirst
    have hrun := runPages_consumerFail mid recsM bp (some id) out0.fieldNames tok0 pk rest rk e
      h200m hconvM hbpM htokM h200k hconvK hbpK
    have hloop : getResultsInBatches bp (some id) (pfirst :: (mid ++ pk :: rest)) =
        ({ QueryExecutionId := some id, NextToken := none } ::
           (some tok0 :: mid.map fun p => p.NextToken).map
             (fun t => { QueryExecutionId := some id, NextToken := t }),
         out0.Data :: (recsM ++ [rk]), .error (.consumer e)) := by
      conv_lhs => rw [getResultsInBatches]
      simp only [hfirst, hbp0, hout0, htok0]
      rw [hrun]
    simp [processQuery, hstart, hwait, hpages, hloop]

/-- A batch processor for the C10 witness: it rejects the page-2 batch
and accepts everything else. -/
def bpFailSecond : BatchProcessor := fun rows =>
  if rows = [[("city", some "Bergen"), ("pop", some "3")]] then .error "boom" else .ok ()

/-- C10 witness: over the two-page chain, the consumer accepts the
first batch and rejects the second; the run stops with the consumer
error after requesting exactly the two pages, with both batches
delivered. -/
theorem processQuery_consumer_rejection_stops_run_witness :
    processQuery none
      { startResponse := { QueryExecutionId := some "qid" }
        statusResponses := [succeededStatus]
        resultsResponses := [w5p1, w5p2] }
      bpFailSecond =
      { QueryExecutionId := some "qid", startCalls := 1, statusFetches := 1,
        resultsRequests := [{ QueryExecutionId := some "qid", NextToken := none },
                            { QueryExecutionId := some "qid", NextToken := some "t1" }],
        batches := [[[("city", some "Oslo"), ("pop", some "7")]],
                    [[("city", some "Bergen"), ("pop", some "3")]]],
        outcome := .error (.consumer "boom") } := by
  have h := processQuery_consumer_rejection_stops_run.2
    { startResponse := { QueryExecutionId := some "qid" }
      statusResponses := [succeededStatus]
      resultsResponses := [w5p1, w5p2] }
    bpFailSecond "qid" 1 w5p1 [] w5p2 []
    { Data := [[("city", some "Oslo"), ("pop", some "7")]]
      NextToken := some "t1"
      fieldNames := ["city", "pop"] }
    [] [[("city", some "Bergen"), ("pop", some "3")]] "boom" "t1"
    rfl (by decide) rfl (by decide) (by decide) rfl
    (by intro p hp; cases hp) rfl (by intro r hr; cases hr)
    (by intro p hp; cases hp) rfl (by decide) (by decide)
  exact h.trans (by decide)


/-- Assigning a key that is not yet present appends it. -/
lemma objInsert_fresh (acc : JsonObject) (key : String) (value : Option String)
    (h : ∀ p ∈ acc, p.1 ≠ key) :
    objInsert acc key value = acc ++ [(key, value)] := by
  unfold objInsert
  rw [if_neg]
  intro hany
  rw [List.any_eq_true] at hany
  obtain ⟨p, hp, hpk⟩ := hany
  exact h p hp (by simpa using hpk)

/-- Converting one row against pairwise distinct, non-empty field names
that extend past the row: the cells pair up positionally with the field
names, nothing more. -/
lemma rowDataLoop_zip :
    ∀ (ds : List Datum) (fns : List String) (i : Nat) (acc : JsonObject),
      i + ds.length ≤ fns.length →
      (∀ s ∈ (fns.drop i).take ds.length, s ≠ "") →
      ((fns.drop i).take ds.length).Nodup →
      (∀ s ∈ (fns.drop i).take ds.length, ∀ p ∈ acc, p.1 ≠ s) →
      rowDataLoop fns acc i ds =
        .ok (acc ++ ((fns.drop i).take ds.length).zip (ds.map fun d => d.VarCharValue)) := by
  intro ds
  induction ds with
  | nil =>
    intro fns i acc hlen hne hnodup hfresh
    simp [rowDataLoop]
  | cons d rest ih =>
    intro fns i acc hlen hne hnodup hfresh
    have hi : i < fns.length := by
      simp only [List.length_cons] at hlen
      omega
    have hocc : (fns.drop i).take (d :: rest).length =
        fns[i] :: (fns.drop (i + 1)).take rest.length := by
      conv_lhs => rw [List.drop_eq_getElem_cons hi]
      rw [List.length_cons, List.take_succ_cons]
    have hnm_ne : fns[i] ≠ "" := by
      apply hne
      rw [hocc]
      exact List.mem_cons_self _ _
    have hnm_fresh : ∀ p ∈ acc, p.1 ≠ fns[i] := by
      intro p hp
      exact hfresh (fns[i]) (by rw [hocc]; exact List.mem_cons_self _ _) p hp
    have hnm_not_tail : fns[i] ∉ (fns.drop (i + 1)).take rest.length := by
      have h := hnodup
      rw [hocc] at h
      exact (List.nodup_cons.mp h).1
    have htail_nodup : ((fns.drop (i + 1)).take rest.length).Nodup := by
      have h := hnodup
      rw [hocc] at h
      exact (List.nodup_cons.mp h).2
    have hrec := ih fns (i + 1) (acc ++ [(fns[i], d.VarCharValue)])
      (by simp only [List.length_cons] at hlen; omega)
      (fun s hs => hne s (by rw [hocc]; exact List.mem_cons_of_mem _ hs))
      htail_nodup
      (by
        intro s hs p hp
        rcases List.mem_append.mp hp with hpa | hpb
        · exact hfresh s (by rw [hocc]; exact List.mem_cons_of_mem _ hs) p hpa
        · have hpe : p = (fns[i], d.VarCharValue) := by simpa using hpb
          rw [hpe]
          show fns[i] ≠ s
          intro hcontra
          exact hnm_not_tail (by rw [hcontra]; exact hs))
    have hstep : rowDataLoop fns acc i (d :: rest) =
        rowDataLoop fns (objInsert acc (fns[i]) d.VarCharValue) (i + 1) rest := by
      conv_lhs => rw [rowDataLoop]
      rw [List.getElem?_eq_getElem hi]
      simp [hnm_ne]
    rw [hstep, objInsert_fresh acc _ _ hnm_fresh, hrec, hocc]
    simp [List.append_assoc]

/-- C9 (amended): a row with strictly fewer cells than there are field
names, whose occupied field names are non-empty and pairwise distinct,
converts without error into the record that pairs each occupied field
name with the cell value at the same position — optional values kept as
they are — with exactly one entry per cell and none for the unreached
trailing names.  (The distinctness hypothesis is what the
counterexample forces: a duplicated occupied name makes the entries
collapse into one.) -/
theorem fromRowsToJsonValues_pairs_distinct_names
    (fns : List String) (row : Row) (ds : List Datum)
    (hdata : row.Data = some ds)
    (hlen : ds.length < fns.length)
    (hne : ∀ s ∈ fns.take ds.length, s ≠ "")
    (hnodup : (fns.take ds.length).Nodup) :
    fromRowsToJsonValues [row] fns =
      .ok [(fns.take ds.length).zip (ds.map fun d => d.VarCharValue)] ∧
    ((fns.take ds.length).zip (ds.map fun d => d.VarCharValue)).length = ds.length := by
  have hloop := rowDataLoop_zip ds fns 0 []
    (by omega)
    (by simpa using hne)
    (by simpa using hnodup)
    (by intro s hs p hp; cases hp)
  simp only [List.drop_zero] at hloop
  constructor
  · conv_lhs => rw [fromRowsToJsonValues]
    rw [hdata]
    simp only [Option.getD_some]
    rw [hloop]
    simp [fromRowsToJsonValues]
  · rw [List.length_zip, List.length_take, List.length_map]
    omega

/-- C9 witness: a two-cell row under three distinct names converts to
the two-entry record pairing name with value, the absent second value
kept absent, and no entry for the third name. -/
theorem fromRowsToJsonValues_pairs_distinct_names_witness :
    fromRowsToJsonValues
        [{ Data := some [{ VarCharValue := some "v0" }, { VarCharValue := none }] }]
        ["f1", "f2", "f3"] =
      .ok [[("f1", some "v0"), ("f2", none)]] := by
  have h := fromRowsToJsonValues_pairs_distinct_names ["f1", "f2", "f3"]
    { Data := some [{ VarCharValue := some "v0" }, { VarCharValue := none }] }
    [{ VarCharValue := some "v0" }, { VarCharValue := none }]
    rfl (by decide) (by decide) (by decide)
  exact h.1.trans (by decide)

/-- C9 counterexample: the row holds two values and the occupied field
names are the duplicated pair a, a; the converted record keeps a single
entry, the later value having overwritten the earlier one, so the
record does not contain one entry per value as claimed. -/
theorem fromRowsToJsonValues_duplicate_names_collapse :
    fromRowsToJsonValues
        [{ Data := some [{ VarCharValue := some "x" }, { VarCharValue := some "y" }] }]
        ["a", "a", "b"] =
      .ok [[("a", some "y")]] ∧
    ([(("a" : String), (some "y" : Option String))].length ≠ 2) :=
  ⟨rfl, by decide⟩


/-- A 200-status non-first page with an absent or empty row list
converts to zero records, the given field names passing through. -/
lemma getResults_false_empty (response : GetQueryResultsCommandOutput)
    (fns : List String)
    (h200 : response.httpStatusCode = some 200)
    (hzero : response.ResultSet.bind (fun rs => rs.Rows) = none ∨
             response.ResultSet.bind (fun rs => rs.Rows) = some []) :
    getResults response false fns =
      .ok { Data := [], NextToken := response.NextToken, fieldNames := fns } := by
  rw [getResults_false response fns h200]
  rcases hzero with h | h <;> simp [pageRecords, h, fromRowsToJsonValues, Except.map]

/-- C6: a 200-status page that yields zero data records still has the
batch consumer invoked for it with the empty batch, and contributes no
error, wherever in the run it is fetched.  Conjuncts: a first page
whose row list is absent, empty, or a lone header row converts to zero
records; so does a later page whose row list is absent or empty; a run
whose first page yields zero records delivers the empty batch to the
consumer and then terminates cleanly or continues with the page's
continuation token; and at any later point of the pagination loop a
zero-record page is delivered to the consumer as the empty batch before
the loop terminates or continues per its token. -/
theorem getResultsInBatches_empty_page_invokes_consumer :
    (∀ (response : GetQueryResultsCommandOutput) (fns0 : List String),
      response.httpStatusCode = some 200 →
      (response.ResultSet.bind (fun rs => rs.Rows) = none ∨
       response.ResultSet.bind (fun rs => rs.Rows) = some [] ∨
       ∃ hdr, response.ResultSet.bind (fun rs => rs.Rows) = some [hdr]) →
      ∃ fns, getResults response true fns0 =
        .ok { Data := [], NextToken := response.NextToken, fieldNames := fns }) ∧
    (∀ (response : GetQueryResultsCommandOutput) (fns : List String),
      response.httpStatusCode = some 200 →
      (response.ResultSet.bind (fun rs => rs.Rows) = none ∨
       response.ResultSet.bind (fun rs => rs.Rows) = some []) →
      getResults response false fns =
        .ok { Data := [], NextToken := response.NextToken, fieldNames := fns }) ∧
    (∀ (bp : BatchProcessor) (id : Option String) (page : GetQueryResultsCommandOutput)
       (rest : List GetQueryResultsCommandOutput) (fns : List String),
      getResults page true [] =
        .ok { Data := [], NextToken := page.NextToken, fieldNames := fns } →
      bp [] = .ok () →
      (page.NextToken = none →
        getResultsInBatches bp id (page :: rest) =
          ([{ QueryExecutionId := id, NextToken := none }], [[]], .ok ())) ∧
      (∀ tok, page.NextToken = some tok →
        getResultsInBatches bp id (page :: rest) =
          ({ QueryExecutionId := id, NextToken := none } ::
             (runPages bp id fns tok rest).1,
           [] :: (runPages bp id fns tok rest).2.1,
           (runPages bp id fns tok rest).2.2))) ∧
    (∀ (bp : BatchProcessor) (id : Option String) (fns : List String) (tok : String)
       (page : GetQueryResultsCommandOutput) (rest : List GetQueryResultsCommandOutput),
      page.httpStatusCode = some 200 →
      (page.ResultSet.bind (fun rs => rs.Rows) = none ∨
       page.ResultSet.bind (fun rs => rs.Rows) = some []) →
      bp [] = .ok () →
      (page.NextToken = none →
        runPages bp id fns tok (page :: rest) =
          ([{ QueryExecutionId := id, NextToken := some tok }], [[]], .ok ())) ∧
      (∀ tok2, page.NextToken = some tok2 →
        runPages bp id fns tok (page :: rest) =
          ({ QueryExecutionId := id, NextToken := some tok } ::
             (runPages bp id fns tok2 rest).1,
           [] :: (runPages bp id fns tok2 rest).2.1,
           (runPages bp id fns tok2 rest).2.2))) := by
  refine ⟨?_, fun r fns h hz => getResults_false_empty r fns h hz, ?_, ?_⟩
  · intro response fns0 h200 hzero
    rcases hzero with h | h | ⟨hdr, h⟩
    · exact ⟨[], by simp [getResults, h200, h]⟩
    · exact ⟨[], by simp [getResults, h200, h, fromRowsToJsonValues]⟩
    · refine ⟨specHeaderNames hdr, ?_⟩
      rw [getResults_true_eq response hdr [] fns0 h200 h]
      simp [fromRowsToJsonValues, Except.map]
  · intro bp id page rest fns hget hbp
    constructor
    · intro hnt
      rw [hnt] at hget
      conv_lhs => rw [getResultsInBatches]
      simp [hget, hbp]
    · intro tok htok
      rw [htok] at hget
      conv_lhs => rw [getResultsInBatches]
      simp [hget, hbp]
  · intro bp id fns tok page rest h200 hzero hbp
    have hget := getResults_false_empty page fns h200 hzero
    constructor
    · intro hnt
      rw [hnt] at hget
      conv_lhs => rw [runPages]
      simp [hget, hbp]
    · intro tok2 htok2
      rw [htok2] at hget
      conv_lhs => rw [runPages]
      simp [hget, hbp]

/-- First page for the C6 witness: only a header row, and it carries a
continuation token. -/
def w6p1 : GetQueryResultsCommandOutput :=
  { httpStatusCode := some 200
    ResultSet := some { Rows := some [{ Data := some [{ VarCharValue := some "h1" }] }] }
    NextToken := some "t6" }

/-- Second page for the C6 witness: an empty row list and no token. -/
def w6p2 : GetQueryResultsCommandOutput :=
  { httpStatusCode := some 200
    ResultSet := some { Rows := some [] }
    NextToken := none }

/-- C6 witness: a run of two zero-record pages, the first holding only
the header and a continuation token, the second an empty row list; the
consumer is invoked once per page with the empty batch and the run part
succeeds. -/
theorem getResultsInBatches_empty_page_invokes_consumer_witness :
    getResultsInBatches bpOk (some "qid") [w6p1, w6p2] =
      ([{ QueryExecutionId := some "qid", NextToken := none },
        { QueryExecutionId := some "qid", NextToken := some "t6" }],
       [[], []], .ok ()) := by
  have h := getResultsInBatches_empty_page_invokes_consumer
  have hc := (h.2.2.1 bpOk (some "qid") w6p1 [w6p2] ["h1"] (by decide) rfl).2 "t6" rfl
  have hd := (h.2.2.2 bpOk (some "qid") ["h1"] "t6" w6p2 [] rfl (Or.inr rfl) rfl).1 rfl
  rw [hc, hd]


end PromotedAthenaQuery
